import Mathlib

/-!
Shallow embedding of `rockefeller/exchange_rates.py`.

The repository stores currency exchange rates in a keyed map
(`MemoryExchangeRates`) and resolves queries through an `ExchangeRates`
wrapper that falls back from a direct lookup to the inverse rate and,
when an indirection currency is supplied, to a two-hop composition.
Rates are parsed with Python's `decimal.Decimal`, whose default context
rounds division to 28 significant digits (round half to even).

Modelling choices, each noted again at the definition it concerns:
* currencies and dates are identified by their CPython hash values,
  with hashing taken to be injective on the objects in play (the code
  keys its dict by `hash(base), hash(currency), hash(date)`);
* a Python string is modelled by `String`; a value stored in the map is
  always a string because `ExchangeRates.add_exchange_rate` stringifies
  its argument;
* `decimal.Decimal` values are modelled by `ℚ` (every finite decimal is
  a rational, and Python's `==` on decimals is numeric equality);
* a float argument is modelled by its `str()` image (CPython prints the
  shortest decimal string that round-trips, e.g. `str(0.78) == "0.78"`);
* exceptions are modelled with `Except`.
-/

namespace Rockefeller

/-- A currency, identified by its CPython hash value.  The resolver and
the store treat currencies as opaque hashable keys. -/
abbrev Cur := Int

/-- A `date` argument: `none` is Python's `None`, `some h` a date object
with hash `h`. -/
abbrev DateKey := Option Int

/-- The dict key built by `MemoryExchangeRates._get_key`: the triple of
hashes of base currency, target currency and date.  Hashing is modelled
as injective (collision-free), which is what the code relies on. -/
abbrev Key := Int × Int × DateKey

/-! ### Parsing numeric strings (`decimal.Decimal(string)`)

The model covers the finite numeric grammar
`[sign] (digits [. digits] | . digits) [(e|E) [sign] digits]`.
Special values (`NaN`, `Infinity`), underscores and surrounding
whitespace are outside the model; no claim involves them.
Parsing is split into a discrete stage (`decimalParseRaw`, over
characters and integers only) and a valuation stage (`ParsedDec.val`),
composed in `decimalParse`. -/

/-- Value of a list of decimal digit characters, most significant first. -/
def digitsToNat (l : List Char) : Nat :=
  l.foldl (fun a c => 10 * a + (c.toNat - 48)) 0

/-- The discrete content of a parsed numeric string:
sign, mantissa digits, number of fractional digits, exponent.
The denoted value is `±mant / 10^fracLen · 10^expo`. -/
structure ParsedDec where
  neg : Bool
  mant : Nat
  fracLen : Nat
  expo : Int
deriving DecidableEq

/-- Parse an exponent part: `[sign] digits`. -/
def parseExpRaw (l : List Char) : Option Int :=
  match l with
  | '+' :: t => if t ≠ [] ∧ t.all Char.isDigit then some (digitsToNat t) else none
  | '-' :: t => if t ≠ [] ∧ t.all Char.isDigit then some (-(digitsToNat t : Int)) else none
  | t => if t ≠ [] ∧ t.all Char.isDigit then some (digitsToNat t) else none

/-- The discrete parsing stage: split off the sign, the mantissa
(digits with an optional single point) and the optional exponent. -/
def decimalParseRaw (s : String) : Option ParsedDec :=
  let cs := s.toList
  let neg : Bool := match cs with | '-' :: _ => true | _ => false
  let rest : List Char := match cs with | '+' :: t => t | '-' :: t => t | t => t
  let mant := rest.takeWhile (fun c => c != 'e' && c != 'E')
  let expPart := rest.dropWhile (fun c => c != 'e' && c != 'E')
  let ip := mant.takeWhile (fun c => c != '.')
  let fp := (mant.dropWhile (fun c => c != '.')).tail
  let expo : Option Int :=
    match expPart with
    | [] => some 0
    | _ :: t => parseExpRaw t
  if ip ++ fp ≠ [] ∧ ip.all Char.isDigit ∧ fp.all Char.isDigit then
    match expo with
    | some e => some ⟨neg, digitsToNat (ip ++ fp), fp.length, e⟩
    | none => none
  else none

/-- The exact decimal value denoted by a parsed string (string
construction of a `Decimal` is exact: the context precision does not
apply to it). -/
def ParsedDec.val (p : ParsedDec) : ℚ :=
  (if p.neg then -1 else 1) * (p.mant : ℚ) / 10 ^ p.fracLen * (10 : ℚ) ^ p.expo

/-- `decimal.Decimal(s)` on a numeric string: the exact decimal value,
or `none` when the string does not parse (Python raises
`decimal.InvalidOperation`). -/
def decimalParse (s : String) : Option ℚ :=
  (decimalParseRaw s).map ParsedDec.val

/-! ### Context-rounded division

Python's `decimal` default context has precision 28 and rounding
`ROUND_HALF_EVEN`; `Decimal(1) / Decimal(r)` is the true quotient
correctly rounded to 28 significant digits, ties to even. -/

/-- `ilog10 q` is the unique `e` with `10 ^ e ≤ |q| < 10 ^ (e + 1)`,
for `q ≠ 0` (the "adjusted exponent" of the decimal spec). -/
def ilog10 (q : ℚ) : ℤ := Int.log 10 |q|

/-- Round a rational to the nearest integer, ties to even
(`ROUND_HALF_EVEN`). -/
def roundHalfEven (q : ℚ) : ℤ :=
  let f := ⌊q⌋
  let r := q - f
  if r < 1 / 2 then f
  else if 1 / 2 < r then f + 1
  else if f % 2 = 0 then f else f + 1

/-- `Decimal` division under the default context: the true quotient
rounded half-even at the 28th significant digit.  (A quotient exactly
representable in 28 significant digits is returned exactly.)  Division
by zero is guarded at the call sites, where Python raises. -/
def decDiv (x y : ℚ) : ℚ :=
  let q := x / y
  if q = 0 then 0
  else
    let e : ℤ := ilog10 q - 27
    (roundHalfEven (q / (10 : ℚ) ^ e) : ℚ) * (10 : ℚ) ^ e

/-! ### Rate arguments and `str()` -/

/-- A value passed as the `rate` / `exchange_rate` argument.  `float`
carries the CPython `str()` image of the float (the shortest decimal
string that round-trips); `dec` is a `decimal.Decimal` with coefficient
`c` and exponent `e`, i.e. the value `c·10^e`. -/
inductive RateArg
  | int (n : Int)
  | float (reprStr : String)
  | str (s : String)
  | dec (c : Int) (e : Int)
deriving DecidableEq

/-- Python `str()` of a rate argument.  For a `Decimal` we use a
scientific form `"{c}E{e}"`; Python's own formatting differs in layout
but re-parses to the same numeric value, which is all the code uses. -/
def pyStr : RateArg → String
  | .int n => toString n
  | .float r => r
  | .str s => s
  | .dec c e => toString c ++ "E" ++ toString e

/-- Is the argument a `decimal.Decimal` instance?  (`ExchangeRate.__new__`
skips the conversion for those.) -/
def RateArg.isDecimalInstance : RateArg → Bool
  | .dec _ _ => true
  | _ => false

/-! ### Exceptions -/

/-- The Python exceptions the embedded code can raise:
`decimal.InvalidOperation` (unparsable string),
`decimal.DivisionByZero`, and `AttributeError` (the indirection branch
reads `self.currency`, an attribute `ExchangeRates` never defines). -/
inductive PyErr
  | invalidOperation
  | divisionByZero
  | attributeError
deriving DecidableEq

/-! ### `ExchangeRate` (value object) -/

/-- The `ExchangeRate` namedtuple after `__new__` has normalized `rate`
to a `decimal.Decimal`. -/
structure ExchangeRate where
  code_from : Cur
  code_to : Cur
  rate : ℚ
  date : DateKey
deriving DecidableEq

/-- `ExchangeRate.__new__`: if `rate` is not already a `Decimal`,
convert with `decimal.Decimal(str(rate))`, which raises
`InvalidOperation` on an unparsable string. -/
def ExchangeRate.new (code_from code_to : Cur) (rate : RateArg)
    (date : DateKey := none) : Except PyErr ExchangeRate :=
  match rate with
  | .dec c e => .ok ⟨code_from, code_to, (c : ℚ) * (10 : ℚ) ^ e, date⟩
  | r =>
    match decimalParse (pyStr r) with
    | some q => .ok ⟨code_from, code_to, q, date⟩
    | none => .error .invalidOperation

/-! ### `MemoryExchangeRates` (the reference store) -/

/-- The store state: the dict `self.rates`, a finite map modelled as a
function from keys to optional stored strings (`dict.get` semantics). -/
abbrev MemoryExchangeRates := Key → Option String

/-- `_get_key`: `hash(base_currency), hash(currency), hash(date)`,
with hashing modelled as injective. -/
def MemoryExchangeRates.getKey (base_currency currency : Cur)
    (date : DateKey) : Key :=
  (base_currency, currency, date)

/-- `add_exchange_rate`: `self.rates[self._get_key(...)] = exchange_rate`
(upsert). -/
def MemoryExchangeRates.add_exchange_rate (m : MemoryExchangeRates)
    (base_currency currency : Cur) (exchange_rate : String)
    (date : DateKey) : MemoryExchangeRates :=
  fun k =>
    if k = MemoryExchangeRates.getKey base_currency currency date then
      some exchange_rate
    else m k

/-- `remove_exchange_rate`: `self.rates.pop(key, None)` on the key AND
on the swapped key — both directions are removed unconditionally. -/
def MemoryExchangeRates.remove_exchange_rate (m : MemoryExchangeRates)
    (base_currency currency : Cur) (date : DateKey) : MemoryExchangeRates :=
  fun k =>
    if k = MemoryExchangeRates.getKey base_currency currency date ∨
       k = MemoryExchangeRates.getKey currency base_currency date then
      none
    else m k

/-- `get_exchange_rate`: `self.rates.get(self._get_key(...))` — exact
key match, `None` when absent. -/
def MemoryExchangeRates.get_exchange_rate (m : MemoryExchangeRates)
    (base_currency currency : Cur) (date : DateKey) : Option String :=
  m (MemoryExchangeRates.getKey base_currency currency date)

/-! ### `ExchangeRates` (the resolver) -/

/-- The resolver, wrapping its store (the reference in-memory store). -/
structure ExchangeRates where
  store : MemoryExchangeRates

/-- What `ExchangeRates.get_exchange_rate` returns when no branch
raises: a derived `Decimal`, or — via the trailing `return rate` — the
falsy value the direct store lookup produced (`None`, or the raw string
`""` if an empty string had been stored). -/
inductive GetResult
  | dec (q : ℚ)
  | str (s : String)
  | pyNone
deriving DecidableEq

/-- `ExchangeRates.add_exchange_rate`: stringify the rate and delegate
to the store; no parsing, no validation. -/
def ExchangeRates.add_exchange_rate (er : ExchangeRates)
    (base_currency currency : Cur) (exchange_rate : RateArg)
    (date : DateKey := none) : ExchangeRates :=
  ⟨er.store.add_exchange_rate base_currency currency (pyStr exchange_rate) date⟩

/-- `ExchangeRates.remove_exchange_rate`: delegate to the store. -/
def ExchangeRates.remove_exchange_rate (er : ExchangeRates)
    (base_currency currency : Cur) (date : DateKey := none) : ExchangeRates :=
  ⟨er.store.remove_exchange_rate base_currency currency date⟩

/-- The indirection step (source lines 88–93).  The branch body begins
by evaluating `self.currency` — an attribute `ExchangeRates` never
defines — so whenever an indirection currency is supplied (truthy) the
branch raises `AttributeError`; otherwise the trailing `return rate`
returns the falsy direct-lookup result. -/
def ExchangeRates.indirectionStage (indirection_currency : Option Cur)
    (rate : GetResult) : Except PyErr GetResult :=
  match indirection_currency with
  | some _ => .error .attributeError
  | none => .ok rate

/-- The inverse step (source lines 83–86), applied to the result of
the store lookup for the swapped key `(currency, base_currency, date)`:
on a truthy result return `Decimal(1) / Decimal(inverse)` (raising
`InvalidOperation` on an unparsable string and `DivisionByZero` on a
zero rate); otherwise fall through to the indirection step. -/
def ExchangeRates.inverseStage (indirection_currency : Option Cur)
    (rate : GetResult) : Option String → Except PyErr GetResult
  | some s =>
    if s = "" then ExchangeRates.indirectionStage indirection_currency rate
    else
      match decimalParse s with
      | some v =>
        if v = 0 then .error .divisionByZero
        else .ok (.dec (decDiv 1 v))
      | none => .error .invalidOperation
  | none => ExchangeRates.indirectionStage indirection_currency rate

/-- The direct step (source lines 79–82), applied to the result of the
store lookup for `(base_currency, currency, date)`: on a truthy stored
string return `Decimal(str(rate))`, else fall through to the inverse
step, remembering the falsy direct result for the final `return rate`. -/
def ExchangeRates.directStage (er : ExchangeRates)
    (base_currency currency : Cur) (indirection_currency : Option Cur)
    (date : DateKey) : Option String → Except PyErr GetResult
  | some s =>
    if s = "" then
      ExchangeRates.inverseStage indirection_currency (.str s)
        (er.store.get_exchange_rate currency base_currency date)
    else
      match decimalParse s with
      | some q => .ok (.dec q)
      | none => .error .invalidOperation
  | none =>
    ExchangeRates.inverseStage indirection_currency .pyNone
      (er.store.get_exchange_rate currency base_currency date)

/-- `ExchangeRates.get_exchange_rate`: direct lookup (truthy test on
the stored string, then `Decimal(str(rate))`), else inverse, else
indirection, else `return rate`. -/
def ExchangeRates.get_exchange_rate (er : ExchangeRates)
    (base_currency currency : Cur) (indirection_currency : Option Cur := none)
    (date : DateKey := none) : Except PyErr GetResult :=
  er.directStage base_currency currency indirection_currency date
    (er.store.get_exchange_rate base_currency currency date)

/-- The store of a freshly constructed `MemoryExchangeRates`
(`self.rates = {}`). -/
def emptyStore : MemoryExchangeRates := fun _ => none

/-- A store holding exactly one entry. -/
def singleStore (base_currency currency : Cur) (date : DateKey)
    (s : String) : MemoryExchangeRates :=
  fun k =>
    if k = MemoryExchangeRates.getKey base_currency currency date then some s
    else none

/-! ## Parser evaluation lemmas -/

theorem decimalParse_eval (s : String) (p : ParsedDec)
    (h : decimalParseRaw s = some p) : decimalParse s = some p.val := by
  unfold decimalParse
  rw [h, Option.map_some']

theorem decimalParse_empty : decimalParse "" = none := by
  unfold decimalParse
  rw [show decimalParseRaw "" = none from by decide]
  rfl

theorem decimalParse_ne_empty {s : String} {v : ℚ}
    (h : decimalParse s = some v) : s ≠ "" := by
  intro he
  rw [he, decimalParse_empty] at h
  exact Option.noConfusion h

theorem decimalParse_078 : decimalParse "0.78" = some (39 / 50) := by
  rw [decimalParse_eval "0.78" ⟨false, 78, 2, 0⟩ (by decide)]
  norm_num [ParsedDec.val]

theorem decimalParse_09 : decimalParse "0.9" = some (9 / 10) := by
  rw [decimalParse_eval "0.9" ⟨false, 9, 1, 0⟩ (by decide)]
  norm_num [ParsedDec.val]

theorem decimalParse_085 : decimalParse "0.85" = some (17 / 20) := by
  rw [decimalParse_eval "0.85" ⟨false, 85, 2, 0⟩ (by decide)]
  norm_num [ParsedDec.val]

theorem decimalParse_three : decimalParse "3" = some 3 := by
  rw [decimalParse_eval "3" ⟨false, 3, 0, 0⟩ (by decide)]
  norm_num [ParsedDec.val]

theorem decimalParse_zero : decimalParse "0" = some 0 := by
  rw [decimalParse_eval "0" ⟨false, 0, 0, 0⟩ (by decide)]
  norm_num [ParsedDec.val]

theorem decimalParse_15 : decimalParse "1.5" = some (3 / 2) := by
  rw [decimalParse_eval "1.5" ⟨false, 15, 1, 0⟩ (by decide)]
  norm_num [ParsedDec.val]

theorem decimalParse_abc : decimalParse "abc" = none := by
  unfold decimalParse
  rw [show decimalParseRaw "abc" = none from by decide]
  rfl

/-! ## Arithmetic lemmas: the adjusted exponent, half-even rounding and
context division -/

theorem ilog10_le (q : ℚ) (hq : q ≠ 0) : (10 : ℚ) ^ ilog10 q ≤ |q| := by
  have h := Int.zpow_log_le_self (b := 10) (R := ℚ) (by norm_num) (abs_pos.2 hq)
  unfold ilog10
  exact_mod_cast h

theorem lt_ilog10_succ (q : ℚ) : |q| < (10 : ℚ) ^ (ilog10 q + 1) := by
  have h := Int.lt_zpow_succ_log_self (b := 10) (R := ℚ) (by norm_num) |q|
  unfold ilog10
  exact_mod_cast h

theorem ilog10_eq (q : ℚ) (e : ℤ) (h1 : (10 : ℚ) ^ e ≤ |q|)
    (h2 : |q| < (10 : ℚ) ^ (e + 1)) : ilog10 q = e := by
  have hq : (0 : ℚ) < |q| := lt_of_lt_of_le (by positivity) h1
  have ha : e ≤ Int.log 10 |q| :=
    (Int.zpow_le_iff_le_log (by norm_num) hq).1 (by exact_mod_cast h1)
  have hb : Int.log 10 |q| < e + 1 :=
    (Int.lt_zpow_iff_log_lt (by norm_num) hq).1 (by exact_mod_cast h2)
  unfold ilog10
  omega

theorem roundHalfEven_sub_abs_le (q : ℚ) :
    |(roundHalfEven q : ℚ) - q| ≤ 1 / 2 := by
  have h1 := Int.floor_le q
  have h2 := Int.lt_floor_add_one q
  simp only [roundHalfEven]
  split_ifs with ha hb hc <;> (rw [abs_le]; push_cast; constructor <;> linarith)

theorem roundHalfEven_eq_of_lt_half (q : ℚ) (f : ℤ) (h1 : (f : ℚ) ≤ q)
    (h2 : q < (f : ℚ) + 1 / 2) : roundHalfEven q = f := by
  have hf : ⌊q⌋ = f := by
    rw [Int.floor_eq_iff]
    exact ⟨h1, by linarith⟩
  simp only [roundHalfEven, hf]
  rw [if_pos (by linarith)]

theorem decDiv_one_three :
    decDiv 1 3 = 3333333333333333333333333333 / 10 ^ 28 := by
  have hq : (1 : ℚ) / 3 ≠ 0 := by norm_num
  have hlog : ilog10 ((1 : ℚ) / 3) = -1 := by
    apply ilog10_eq
    · rw [abs_of_pos (by norm_num)]
      rw [zpow_neg, zpow_one]
      norm_num
    · rw [abs_of_pos (by norm_num)]
      norm_num
  simp only [decDiv]
  rw [if_neg hq, hlog]
  rw [show (-1 : ℤ) - 27 = -28 from by norm_num]
  rw [show (1 : ℚ) / 3 / (10 : ℚ) ^ (-28 : ℤ) = 10 ^ (28 : ℕ) / 3 from by
    rw [zpow_neg]; norm_num]
  rw [roundHalfEven_eq_of_lt_half (10 ^ (28 : ℕ) / 3)
    3333333333333333333333333333 (by norm_num) (by norm_num)]
  rw [zpow_neg]
  norm_num

theorem decDiv_sub_abs_le (x y : ℚ) (hq : x / y ≠ 0) :
    |decDiv x y - x / y| ≤ |x / y| / 2 * (1 / 10) ^ (27 : ℕ) := by
  have h10 : (0 : ℚ) < (10 : ℚ) ^ (ilog10 (x / y) - 27) := by positivity
  simp only [decDiv]
  rw [if_neg hq]
  rw [show (roundHalfEven (x / y / 10 ^ (ilog10 (x / y) - 27)) : ℚ) *
        10 ^ (ilog10 (x / y) - 27) - x / y
      = ((roundHalfEven (x / y / 10 ^ (ilog10 (x / y) - 27)) : ℚ) -
          x / y / 10 ^ (ilog10 (x / y) - 27)) * 10 ^ (ilog10 (x / y) - 27) from by
    rw [sub_mul, div_mul_cancel₀ _ (ne_of_gt h10)]]
  rw [abs_mul, abs_of_pos h10]
  have hb := roundHalfEven_sub_abs_le (x / y / 10 ^ (ilog10 (x / y) - 27))
  have h2 : (10 : ℚ) ^ (ilog10 (x / y) - 27) ≤ |x / y| * (1 / 10) ^ (27 : ℕ) := by
    rw [zpow_sub₀ (by norm_num : (10 : ℚ) ≠ 0)]
    rw [show (10 : ℚ) ^ (27 : ℤ) = (10 : ℚ) ^ (27 : ℕ) from by norm_num]
    rw [div_eq_mul_inv, ← inv_pow, ← one_div]
    exact mul_le_mul_of_nonneg_right (ilog10_le (x / y) hq) (by positivity)
  calc |(roundHalfEven (x / y / 10 ^ (ilog10 (x / y) - 27)) : ℚ) -
        x / y / 10 ^ (ilog10 (x / y) - 27)| * 10 ^ (ilog10 (x / y) - 27)
      ≤ (1 / 2) * (|x / y| * (1 / 10) ^ (27 : ℕ)) :=
        mul_le_mul hb h2 (le_of_lt h10) (by norm_num)
    _ = |x / y| / 2 * (1 / 10) ^ (27 : ℕ) := by ring

/-! ## Store lemmas -/

theorem MemoryExchangeRates.get_add_same (m : MemoryExchangeRates) (b c : Cur)
    (s : String) (d : DateKey) :
    (m.add_exchange_rate b c s d).get_exchange_rate b c d = some s := by
  simp [MemoryExchangeRates.add_exchange_rate, MemoryExchangeRates.get_exchange_rate]

theorem MemoryExchangeRates.get_add_other (m : MemoryExchangeRates)
    (b c b' c' : Cur) (s : String) (d d' : DateKey)
    (h : MemoryExchangeRates.getKey b' c' d' ≠ MemoryExchangeRates.getKey b c d) :
    (m.add_exchange_rate b c s d).get_exchange_rate b' c' d'
      = m.get_exchange_rate b' c' d' := by
  simp [MemoryExchangeRates.add_exchange_rate, MemoryExchangeRates.get_exchange_rate, h]

theorem MemoryExchangeRates.getKey_swap_ne (b c : Cur) (d : DateKey) (h : b ≠ c) :
    MemoryExchangeRates.getKey b c d ≠ MemoryExchangeRates.getKey c b d := by
  simp only [MemoryExchangeRates.getKey, Ne, Prod.mk.injEq]
  intro hcon
  exact h hcon.1

/-! ## Resolver step lemmas -/

theorem ExchangeRates.get_direct (er : ExchangeRates) (b c : Cur)
    (ind : Option Cur) (d : DateKey) (s : String) (q : ℚ)
    (hd : er.store.get_exchange_rate b c d = some s)
    (hp : decimalParse s = some q) :
    er.get_exchange_rate b c ind d = .ok (.dec q) := by
  have hs : s ≠ "" := decimalParse_ne_empty hp
  unfold ExchangeRates.get_exchange_rate
  rw [hd]
  simp only [ExchangeRates.directStage]
  rw [if_neg hs, hp]

theorem ExchangeRates.get_direct_unparsable (er : ExchangeRates) (b c : Cur)
    (ind : Option Cur) (d : DateKey) (s : String)
    (hd : er.store.get_exchange_rate b c d = some s)
    (hs : s ≠ "") (hp : decimalParse s = none) :
    er.get_exchange_rate b c ind d = .error .invalidOperation := by
  unfold ExchangeRates.get_exchange_rate
  rw [hd]
  simp only [ExchangeRates.directStage]
  rw [if_neg hs, hp]

theorem ExchangeRates.get_inverse (er : ExchangeRates) (b c : Cur)
    (ind : Option Cur) (d : DateKey) (s : String) (v : ℚ)
    (hd : er.store.get_exchange_rate b c d = none)
    (hi : er.store.get_exchange_rate c b d = some s)
    (hp : decimalParse s = some v) (hv : v ≠ 0) :
    er.get_exchange_rate b c ind d = .ok (.dec (decDiv 1 v)) := by
  have hs : s ≠ "" := decimalParse_ne_empty hp
  unfold ExchangeRates.get_exchange_rate
  rw [hd]
  simp only [ExchangeRates.directStage]
  rw [hi]
  simp only [ExchangeRates.inverseStage]
  rw [if_neg hs, hp]
  change (if v = 0 then Except.error PyErr.divisionByZero
    else Except.ok (GetResult.dec (decDiv 1 v))) = _
  rw [if_neg hv]

theorem ExchangeRates.get_inverse_zero (er : ExchangeRates) (b c : Cur)
    (ind : Option Cur) (d : DateKey) (s : String)
    (hd : er.store.get_exchange_rate b c d = none)
    (hi : er.store.get_exchange_rate c b d = some s)
    (hp : decimalParse s = some 0) :
    er.get_exchange_rate b c ind d = .error .divisionByZero := by
  have hs : s ≠ "" := decimalParse_ne_empty hp
  unfold ExchangeRates.get_exchange_rate
  rw [hd]
  simp only [ExchangeRates.directStage]
  rw [hi]
  simp only [ExchangeRates.inverseStage]
  rw [if_neg hs, hp]
  change (if (0 : ℚ) = 0 then Except.error PyErr.divisionByZero
    else Except.ok (GetResult.dec (decDiv 1 0))) = _
  rw [if_pos rfl]

theorem ExchangeRates.get_notfound (er : ExchangeRates) (b c : Cur)
    (d : DateKey)
    (hd : er.store.get_exchange_rate b c d = none)
    (hi : er.store.get_exchange_rate c b d = none) :
    er.get_exchange_rate b c none d = .ok .pyNone := by
  unfold ExchangeRates.get_exchange_rate
  rw [hd]
  simp only [ExchangeRates.directStage]
  rw [hi]
  simp only [ExchangeRates.inverseStage, ExchangeRates.indirectionStage]

theorem ExchangeRates.get_indirection_raises (er : ExchangeRates) (b c i : Cur)
    (d : DateKey)
    (hd : er.store.get_exchange_rate b c d = none)
    (hi : er.store.get_exchange_rate c b d = none) :
    er.get_exchange_rate b c (some i) d = .error .attributeError := by
  unfold ExchangeRates.get_exchange_rate
  rw [hd]
  simp only [ExchangeRates.directStage]
  rw [hi]
  simp only [ExchangeRates.inverseStage, ExchangeRates.indirectionStage]

theorem ExchangeRates.add_store_same (er : ExchangeRates) (b c : Cur)
    (r : RateArg) (d : DateKey) :
    (er.add_exchange_rate b c r d).store.get_exchange_rate b c d
      = some (pyStr r) := by
  simp only [ExchangeRates.add_exchange_rate]
  exact MemoryExchangeRates.get_add_same er.store b c (pyStr r) d

theorem ExchangeRate.new_eval (cf ct : Cur) (d : DateKey) (r : RateArg) (q : ℚ)
    (hnd : r.isDecimalInstance = false) (h : decimalParse (pyStr r) = some q) :
    ExchangeRate.new cf ct r d = .ok ⟨cf, ct, q, d⟩ := by
  cases r with
  | dec c e => exact absurd hnd (by simp [RateArg.isDecimalInstance])
  | int n =>
    show (match decimalParse (pyStr (RateArg.int n)) with
      | some q => Except.ok (ExchangeRate.mk cf ct q d)
      | none => Except.error PyErr.invalidOperation) = _
    rw [h]
  | float s =>
    show (match decimalParse (pyStr (RateArg.float s)) with
      | some q => Except.ok (ExchangeRate.mk cf ct q d)
      | none => Except.error PyErr.invalidOperation) = _
    rw [h]
  | str s =>
    show (match decimalParse (pyStr (RateArg.str s)) with
      | some q => Except.ok (ExchangeRate.mk cf ct q d)
      | none => Except.error PyErr.invalidOperation) = _
    rw [h]

theorem ExchangeRate.new_invalidArg (cf ct : Cur) (d : DateKey) (r : RateArg)
    (hnd : r.isDecimalInstance = false) (h : decimalParse (pyStr r) = none) :
    ExchangeRate.new cf ct r d = .error .invalidOperation := by
  cases r with
  | dec c e => exact absurd hnd (by simp [RateArg.isDecimalInstance])
  | int n =>
    show (match decimalParse (pyStr (RateArg.int n)) with
      | some q => Except.ok (ExchangeRate.mk cf ct q d)
      | none => Except.error PyErr.invalidOperation) = _
    rw [h]
  | float s =>
    show (match decimalParse (pyStr (RateArg.float s)) with
      | some q => Except.ok (ExchangeRate.mk cf ct q d)
      | none => Except.error PyErr.invalidOperation) = _
    rw [h]
  | str s =>
    show (match decimalParse (pyStr (RateArg.str s)) with
      | some q => Except.ok (ExchangeRate.mk cf ct q d)
      | none => Except.error PyErr.invalidOperation) = _
    rw [h]

/-! ## The claims -/

/-- C1: the claim says that with `(base, indirection, date)` and
`(indirection, target, date)` resolvable and no direct or inverse rate
for `(base, target, date)`, `get_exchange_rate base target indirection
date` returns the product of the two sub-rates.  In the code the
indirection branch (lines 89–90) reads `self.currency`, an attribute
`ExchangeRates` never defines, so the call raises `AttributeError`
instead.  This theorem evaluates the model at the claim's own example
(USD=1 → EUR=2 stored 0.9, EUR=2 → GBP=3 stored 0.85, no direct or
inverse USD→GBP rate, both sub-rates resolvable): the result is the
`AttributeError`, not `ok (dec (0.9 * 0.85))`. -/
theorem C1_indirection_branch_raises :
    (ExchangeRates.mk ((singleStore 1 2 none "0.9").add_exchange_rate 2 3 "0.85"
        none)).store.get_exchange_rate 1 3 none = none ∧
    (ExchangeRates.mk ((singleStore 1 2 none "0.9").add_exchange_rate 2 3 "0.85"
        none)).store.get_exchange_rate 3 1 none = none ∧
    (ExchangeRates.mk ((singleStore 1 2 none "0.9").add_exchange_rate 2 3 "0.85"
        none)).get_exchange_rate 1 2 none none = .ok (.dec (9 / 10)) ∧
    (ExchangeRates.mk ((singleStore 1 2 none "0.9").add_exchange_rate 2 3 "0.85"
        none)).get_exchange_rate 2 3 none none = .ok (.dec (17 / 20)) ∧
    (ExchangeRates.mk ((singleStore 1 2 none "0.9").add_exchange_rate 2 3 "0.85"
        none)).get_exchange_rate 1 3 (some 2) none = .error .attributeError := by
  refine ⟨rfl, rfl, ?_, ?_, rfl⟩
  · exact ExchangeRates.get_direct _ 1 2 none none "0.9" (9 / 10) rfl decimalParse_09
  · exact ExchangeRates.get_direct _ 2 3 none none "0.85" (17 / 20) rfl decimalParse_085

/-- C2 counterexample: the claim says `add_exchange_rate` with an
unparsable rate raises an `InvalidArgument`-class error at add time and
never stores the value unparsed.  In the code `add_exchange_rate` does
no parsing: adding the unparsable string `"abc"` succeeds and stores
`"abc"` verbatim; the error only surfaces on the later `get`. -/
theorem C2_counterexample :
    decimalParse "abc" = none ∧
    ((ExchangeRates.mk emptyStore).add_exchange_rate 1 2 (.str "abc")
        none).store.get_exchange_rate 1 2 none = some "abc" ∧
    ((ExchangeRates.mk emptyStore).add_exchange_rate 1 2 (.str "abc")
        none).get_exchange_rate 1 2 none none = .error .invalidOperation := by
  refine ⟨decimalParse_abc, rfl, ?_⟩
  exact ExchangeRates.get_direct_unparsable _ 1 2 none none "abc" rfl
    (by decide) decimalParse_abc

/-- C2 (amended): constructing an `ExchangeRate` from a rate that does
not parse raises `decimal.InvalidOperation` synchronously at
construction time; the resolver's `add_exchange_rate`, however,
performs no parsing — it stores `str(rate)` unparsed, and the
`InvalidOperation` error is deferred to the `get_exchange_rate` that
reads the entry back. -/
theorem C2_amended_parse_errors (cf ct b c : Cur) (d : DateKey)
    (er : ExchangeRates) (r : RateArg)
    (hnd : r.isDecimalInstance = false)
    (hbad : decimalParse (pyStr r) = none) :
    ExchangeRate.new cf ct r d = .error .invalidOperation ∧
    (er.add_exchange_rate b c r d).store.get_exchange_rate b c d
      = some (pyStr r) ∧
    (pyStr r ≠ "" →
      (er.add_exchange_rate b c r d).get_exchange_rate b c none d
        = .error .invalidOperation) := by
  refine ⟨ExchangeRate.new_invalidArg cf ct d r hnd hbad,
    ExchangeRates.add_store_same er b c r d, fun hne => ?_⟩
  exact ExchangeRates.get_direct_unparsable _ b c none d (pyStr r)
    (ExchangeRates.add_store_same er b c r d) hne hbad

theorem C2_amended_parse_errors_witness :
    ExchangeRate.new 1 2 (.str "abc") none = .error .invalidOperation ∧
    ((ExchangeRates.mk emptyStore).add_exchange_rate 3 4 (.str "abc")
        none).store.get_exchange_rate 3 4 none = some "abc" ∧
    ((ExchangeRates.mk emptyStore).add_exchange_rate 3 4 (.str "abc")
        none).get_exchange_rate 3 4 none none = .error .invalidOperation := by
  have h := C2_amended_parse_errors 1 2 3 4 none (ExchangeRates.mk emptyStore)
    (.str "abc") rfl decimalParse_abc
  exact ⟨h.1, h.2.1, h.2.2 (by decide)⟩

/-- C3 counterexample: the claim says `remove(base, target, date)`
leaves the entry at the swapped key `(target, base, date)` unchanged.
In the code `MemoryExchangeRates.remove_exchange_rate` pops **both**
keys: with entries at `(1,2)` and `(2,1)`, removing `(1,2)` also
deletes the `(2,1)` entry. -/
theorem C3_counterexample :
    ((singleStore 1 2 none "2").add_exchange_rate 2 1 "3"
        none).get_exchange_rate 2 1 none = some "3" ∧
    (((singleStore 1 2 none "2").add_exchange_rate 2 1 "3"
        none).remove_exchange_rate 1 2 none).get_exchange_rate 2 1 none
      = none := ⟨rfl, rfl⟩

/-- C3 (amended): `remove_exchange_rate base target date` deletes BOTH
the entry at `(base, target, date)` and the entry at the swapped key
`(target, base, date)` (dual removal, unconditional), and leaves the
entry at every other key unchanged. -/
theorem C3_amended_remove_dual (m : MemoryExchangeRates) (b c : Cur)
    (d : DateKey) :
    (m.remove_exchange_rate b c d).get_exchange_rate b c d = none ∧
    (m.remove_exchange_rate b c d).get_exchange_rate c b d = none ∧
    ∀ k : Key, k ≠ MemoryExchangeRates.getKey b c d →
      k ≠ MemoryExchangeRates.getKey c b d →
      m.remove_exchange_rate b c d k = m k := by
  refine ⟨?_, ?_, fun k h1 h2 => ?_⟩
  · simp [MemoryExchangeRates.remove_exchange_rate,
      MemoryExchangeRates.get_exchange_rate]
  · simp [MemoryExchangeRates.remove_exchange_rate,
      MemoryExchangeRates.get_exchange_rate]
  · simp [MemoryExchangeRates.remove_exchange_rate, h1, h2]

theorem C3_amended_remove_dual_witness :
    ((singleStore 1 2 none "2").remove_exchange_rate 1 2
        none).get_exchange_rate 1 2 none = none ∧
    ((singleStore 1 2 none "2").remove_exchange_rate 1 2
        none).get_exchange_rate 2 1 none = none ∧
    (singleStore 1 2 none "2").remove_exchange_rate 1 2 none (5, 6, none)
      = singleStore 1 2 none "2" (5, 6, none) := by
  have h := C3_amended_remove_dual (singleStore 1 2 none "2") 1 2 none
  exact ⟨h.1, h.2.1, h.2.2 (5, 6, none) (by decide) (by decide)⟩

/-- C4 counterexample: the claim says that with only `(target, base,
date) → 3` stored, `get_exchange_rate base target date` returns exactly
`1/3`.  `decimal.Decimal(1) / decimal.Decimal("3")` rounds to the
default context precision of 28 significant digits, so the result is
`0.3333333333333333333333333333` (28 threes), which differs from the
exact rational `1/3` — and also from the 27-digit value
`0.333333333333333333333333333` that the claim's example quotes. -/
theorem C4_counterexample :
    (ExchangeRates.mk (singleStore 2 1 none "3")).get_exchange_rate 1 2 none none
      = .ok (.dec (3333333333333333333333333333 / 10 ^ 28)) ∧
    (3333333333333333333333333333 / 10 ^ 28 : ℚ) ≠ 1 / 3 ∧
    (3333333333333333333333333333 / 10 ^ 28 : ℚ)
      ≠ 333333333333333333333333333 / 10 ^ 27 := by
  refine ⟨?_, by norm_num, by norm_num⟩
  have h := ExchangeRates.get_inverse (ExchangeRates.mk (singleStore 2 1 none "3"))
    1 2 none none "3" 3 rfl rfl decimalParse_three (by norm_num)
  rw [h, decDiv_one_three]

/-- C4 (amended): with no direct entry and an inverse entry whose
string parses to a non-zero `v`, `get_exchange_rate` returns
`Decimal(1)/Decimal(v)`: the true quotient `1/v` correctly rounded to
the decimal context's 28 significant digits (round half to even) — a
decimal computation with relative error at most `(1/2)·10⁻²⁷`, not a
binary-float artifact, and exact whenever `1/v` fits in 28 significant
digits. -/
theorem C4_amended_inverse_rounded (er : ExchangeRates) (b c : Cur)
    (d : DateKey) (s : String) (v : ℚ)
    (hd : er.store.get_exchange_rate b c d = none)
    (hi : er.store.get_exchange_rate c b d = some s)
    (hp : decimalParse s = some v) (hv : v ≠ 0) :
    er.get_exchange_rate b c none d = .ok (.dec (decDiv 1 v)) ∧
    |decDiv 1 v - 1 / v| ≤ |1 / v| / 2 * (1 / 10) ^ (27 : ℕ) :=
  ⟨ExchangeRates.get_inverse er b c none d s v hd hi hp hv,
   decDiv_sub_abs_le 1 v (one_div_ne_zero hv)⟩

theorem C4_amended_inverse_rounded_witness :
    (ExchangeRates.mk (singleStore 2 1 none "3")).get_exchange_rate 1 2 none none
      = .ok (.dec (decDiv 1 3)) ∧
    |decDiv 1 3 - 1 / 3| ≤ |(1 : ℚ) / 3| / 2 * (1 / 10) ^ (27 : ℕ) :=
  C4_amended_inverse_rounded (ExchangeRates.mk (singleStore 2 1 none "3"))
    1 2 none "3" 3 rfl rfl decimalParse_three (by norm_num)

/-- C5: when a direct entry for `(base, target, date)` exists (here:
both the direct and the swapped entry were added), `get_exchange_rate`
returns the parsed direct rate — the direct lookup is attempted first
and short-circuits, so the inverse entry plays no role. -/
theorem C5_direct_wins (er : ExchangeRates) (b c : Cur) (d : DateKey)
    (r1 r2 : RateArg) (v1 v2 : ℚ) (hbc : b ≠ c)
    (h1 : decimalParse (pyStr r1) = some v1)
    (_h2 : decimalParse (pyStr r2) = some v2) :
    ((er.add_exchange_rate b c r1 d).add_exchange_rate c b
        r2 d).get_exchange_rate b c none d = .ok (.dec v1) := by
  apply ExchangeRates.get_direct _ b c none d (pyStr r1) v1 _ h1
  have hk := MemoryExchangeRates.getKey_swap_ne b c d hbc
  calc ((er.add_exchange_rate b c r1 d).add_exchange_rate c b
        r2 d).store.get_exchange_rate b c d
      = (er.add_exchange_rate b c r1 d).store.get_exchange_rate b c d :=
        MemoryExchangeRates.get_add_other _ c b b c _ d d hk
    _ = some (pyStr r1) := ExchangeRates.add_store_same er b c r1 d

theorem C5_direct_wins_witness :
    (((ExchangeRates.mk emptyStore).add_exchange_rate 1 2 (.str "0.9")
        none).add_exchange_rate 2 1 (.str "3") none).get_exchange_rate 1 2 none none
      = .ok (.dec (9 / 10)) :=
  C5_direct_wins (ExchangeRates.mk emptyStore) 1 2 none (.str "0.9")
    (.str "3") (9 / 10) 3 (by decide) decimalParse_09 decimalParse_three

/-- C6: round-trip — for every valid rate argument (one whose `str()`
image parses to a decimal `v`), `add_exchange_rate` followed by
`get_exchange_rate` on the same key returns the decimal `v`, i.e. a
decimal equal to the rate that was added. -/
theorem C6_roundtrip (er : ExchangeRates) (b c : Cur) (d : DateKey)
    (r : RateArg) (v : ℚ) (h : decimalParse (pyStr r) = some v) :
    (er.add_exchange_rate b c r d).get_exchange_rate b c none d
      = .ok (.dec v) :=
  ExchangeRates.get_direct _ b c none d (pyStr r) v
    (ExchangeRates.add_store_same er b c r d) h

theorem C6_roundtrip_witness :
    ((ExchangeRates.mk emptyStore).add_exchange_rate 1 2 (.str "1.5")
        none).get_exchange_rate 1 2 none none = .ok (.dec (3 / 2)) :=
  C6_roundtrip (ExchangeRates.mk emptyStore) 1 2 none (.str "1.5") (3 / 2)
    decimalParse_15

/-- C7 counterexample: the claim says a completely unstored pair (no
direct entry, no inverse entry, no valid indirection resolution)
resolves to the "not found" sentinel without raising.  With an
indirection currency supplied, the broken indirection branch raises
`AttributeError` instead (on an otherwise empty store, so nothing is
resolvable). -/
theorem C7_counterexample :
    emptyStore.get_exchange_rate 1 2 none = none ∧
    emptyStore.get_exchange_rate 2 1 none = none ∧
    (ExchangeRates.mk emptyStore).get_exchange_rate 1 2 (some 3) none
      = .error .attributeError := ⟨rfl, rfl, rfl⟩

/-- C7 (amended): for a completely unstored pair queried with **no
indirection currency**, `get_exchange_rate` returns `None` (the
not-found sentinel): no exception is raised and the result is neither
an error nor the decimal zero; at the store layer, absence is likewise
the `None` sentinel.  (With an indirection currency supplied the call
instead raises `AttributeError` — see C1.) -/
theorem C7_amended_absence_sentinel (er : ExchangeRates) (b c : Cur)
    (d : DateKey)
    (hd : er.store.get_exchange_rate b c d = none)
    (hi : er.store.get_exchange_rate c b d = none) :
    er.get_exchange_rate b c none d = .ok .pyNone ∧
    (∀ e : PyErr, er.get_exchange_rate b c none d ≠ .error e) ∧
    er.get_exchange_rate b c none d ≠ .ok (.dec 0) := by
  have h := ExchangeRates.get_notfound er b c d hd hi
  refine ⟨h, fun e hcon => ?_, fun hcon => ?_⟩
  · rw [h] at hcon
    exact Except.noConfusion hcon
  · rw [h] at hcon
    exact GetResult.noConfusion (Except.ok.inj hcon)

theorem C7_amended_absence_sentinel_witness :
    (ExchangeRates.mk emptyStore).get_exchange_rate 1 2 none none
      = .ok .pyNone ∧
    (∀ e : PyErr, (ExchangeRates.mk emptyStore).get_exchange_rate 1 2 none none
      ≠ .error e) ∧
    (ExchangeRates.mk emptyStore).get_exchange_rate 1 2 none none
      ≠ .ok (.dec 0) :=
  C7_amended_absence_sentinel (ExchangeRates.mk emptyStore) 1 2 none rfl rfl

/-- C8: the resolver gives no implicit self-rate of 1 — if no entry for
`(X, X, date)` was ever stored, `get_exchange_rate X X date` resolves
to the not-found sentinel `None` (both the direct and the inverse
lookup hit the same absent key), not to the decimal 1. -/
theorem C8_no_implicit_self_rate (er : ExchangeRates) (x : Cur)
    (d : DateKey) (h : er.store.get_exchange_rate x x d = none) :
    er.get_exchange_rate x x none d = .ok .pyNone ∧
    er.get_exchange_rate x x none d ≠ .ok (.dec 1) := by
  have hg := ExchangeRates.get_notfound er x x d h h
  refine ⟨hg, fun hcon => ?_⟩
  rw [hg] at hcon
  exact GetResult.noConfusion (Except.ok.inj hcon)

theorem C8_no_implicit_self_rate_witness :
    (ExchangeRates.mk emptyStore).get_exchange_rate 7 7 none none
      = .ok .pyNone ∧
    (ExchangeRates.mk emptyStore).get_exchange_rate 7 7 none none
      ≠ .ok (.dec 1) :=
  C8_no_implicit_self_rate (ExchangeRates.mk emptyStore) 7 none rfl

/-- C9: `ExchangeRate.__new__` normalizes the rate to an exact decimal
whatever the input representation: constructing with the float literal
`0.78` (whose CPython `str()` image is `"0.78"`) and with the string
`"0.78"` produce the same stored decimal rate, `39/50` exactly. -/
theorem C9_decimal_normalization (cf ct : Cur) (d : DateKey) :
    ExchangeRate.new cf ct (.float "0.78") d = .ok ⟨cf, ct, 39 / 50, d⟩ ∧
    ExchangeRate.new cf ct (.str "0.78") d = .ok ⟨cf, ct, 39 / 50, d⟩ :=
  ⟨ExchangeRate.new_eval cf ct d (.float "0.78") (39 / 50) rfl decimalParse_078,
   ExchangeRate.new_eval cf ct d (.str "0.78") (39 / 50) rfl decimalParse_078⟩

/-- C10: the inverse branch divides without guarding against a zero
stored rate.  First part: with no direct entry and the inverse entry
holding the string `"0"` (truthy, parses to zero), `get_exchange_rate`
raises `decimal.DivisionByZero` rather than returning a value or the
not-found sentinel.  Second part: if every stored string parses to a
non-zero decimal, the `DivisionByZero` branch is unreachable for every
query. -/
theorem C10_inverse_division_by_zero :
    (∀ (er : ExchangeRates) (b c : Cur) (ind : Option Cur) (d : DateKey),
      er.store.get_exchange_rate b c d = none →
      er.store.get_exchange_rate c b d = some "0" →
      er.get_exchange_rate b c ind d = .error .divisionByZero) ∧
    (∀ (er : ExchangeRates) (b c : Cur) (ind : Option Cur) (d : DateKey),
      (∀ (k : Key) (s : String), er.store k = some s →
        ∃ v : ℚ, decimalParse s = some v ∧ v ≠ 0) →
      er.get_exchange_rate b c ind d ≠ .error .divisionByZero) := by
  constructor
  · intro er b c ind d hd hi
    exact ExchangeRates.get_inverse_zero er b c ind d "0" hd hi decimalParse_zero
  · intro er b c ind d hall
    unfold ExchangeRates.get_exchange_rate
    cases hds : er.store.get_exchange_rate b c d with
    | some s =>
      simp only [ExchangeRates.directStage]
      obtain ⟨v, hv, hvnz⟩ := hall (MemoryExchangeRates.getKey b c d) s hds
      have hs : s ≠ "" := decimalParse_ne_empty hv
      rw [if_neg hs, hv]
      intro hcon
      exact Except.noConfusion hcon
    | none =>
      simp only [ExchangeRates.directStage]
      cases his : er.store.get_exchange_rate c b d with
      | some s =>
        simp only [ExchangeRates.inverseStage]
        obtain ⟨v, hv, hvnz⟩ := hall (MemoryExchangeRates.getKey c b d) s his
        have hs : s ≠ "" := decimalParse_ne_empty hv
        rw [if_neg hs, hv]
        change (if v = 0 then Except.error PyErr.divisionByZero
          else Except.ok (GetResult.dec (decDiv 1 v))) ≠ _
        rw [if_neg hvnz]
        intro hcon
        exact Except.noConfusion hcon
      | none =>
        simp only [ExchangeRates.inverseStage, ExchangeRates.indirectionStage]
        cases ind with
        | some i =>
          intro hcon
          exact PyErr.noConfusion (Except.error.inj hcon)
        | none =>
          intro hcon
          exact Except.noConfusion hcon

theorem C10_inverse_division_by_zero_witness :
    (ExchangeRates.mk (singleStore 2 1 none "0")).get_exchange_rate 1 2 none none
      = .error .divisionByZero ∧
    (ExchangeRates.mk (singleStore 2 1 none "3")).get_exchange_rate 1 2 none none
      ≠ .error .divisionByZero := by
  constructor
  · exact C10_inverse_division_by_zero.1
      (ExchangeRates.mk (singleStore 2 1 none "0")) 1 2 none none rfl rfl
  · apply C10_inverse_division_by_zero.2
    intro k s hks
    simp only [singleStore] at hks
    by_cases hk : k = MemoryExchangeRates.getKey 2 1 none
    · rw [if_pos hk] at hks
      injection hks with hs
      subst hs
      exact ⟨3, decimalParse_three, by norm_num⟩
    · rw [if_neg hk] at hks
      exact Option.noConfusion hks

end Rockefeller
